import Mathlib

/-!
Verification development for the food-wastage dashboard (`src/app.py`).

The Python source is shallowly embedded below: the SQLite tables become
lists of records, the form-submit handler `add_food_form` becomes a pure
state-transforming function, and the pandas aggregates of the dashboard
tab become pure functions over a list of already-loaded rows.
-/

/-! ## Calendar dates (`datetime.date`, `pd.Timestamp` at day granularity) -/

/-- A calendar date, compared lexicographically (year, month, day), which is
how `datetime.date` and normalized `pd.Timestamp` values compare. -/
structure Date where
  year : Nat
  month : Nat
  day : Nat
deriving DecidableEq, Repr

/-- Strict comparison of dates, lexicographic on (year, month, day). -/
def Date.ltb (a b : Date) : Bool :=
  decide (a.year < b.year) ||
    (a.year == b.year &&
      (decide (a.month < b.month) || (a.month == b.month && decide (a.day < b.day))))

/-- Non-strict comparison of dates. -/
def Date.leb (a b : Date) : Bool := !(Date.ltb b a)

/-- A valid `datetime.date`: Python restricts year to 1..9999, month to 1..12,
day to 1..31 (at most; we keep the coarse bounds, which are all the proofs use). -/
def Date.valid (d : Date) : Prop :=
  1 ≤ d.year ∧ d.year ≤ 9999 ∧ 1 ≤ d.month ∧ d.month ≤ 12 ∧ 1 ≤ d.day ∧ d.day ≤ 31

instance (d : Date) : Decidable d.valid := by
  unfold Date.valid; infer_instance

/-! ## Python `str.strip()` -/

/-- ASCII whitespace recognised by `str.strip()`. -/
def isSpace (c : Char) : Bool :=
  c == ' ' || c == '\t' || c == '\n' || c == '\r' || c == '\x0b' || c == '\x0c'

/-- Strip whitespace from both ends of a character list. -/
def stripL (l : List Char) : List Char :=
  ((l.dropWhile isSpace).reverse.dropWhile isSpace).reverse

/-- Python `s.strip()`. -/
def strip (s : String) : String := ⟨stripL s.data⟩

/-! ## Data model: the two SQLite tables -/

/-- One row of `food_listings` (the autoincrement `id` is the list position;
`Expiry_Date` is stored as TEXT, exactly as in the schema). -/
structure FoodRow where
  Food_ID : String
  Provider_ID : String
  Food_Item : String
  Quantity : ℚ
  Expiry_Date : String
  Location : String
  Meal_Type : String
deriving DecidableEq, Repr

/-- One row of `providers`. -/
structure ProviderRow where
  Name : String
  Contact : String
  City : String
deriving DecidableEq, Repr

/-- The database: the two tables created by `create_tables`. -/
structure DB where
  food_listings : List FoodRow
  providers : List ProviderRow
deriving DecidableEq, Repr

/-- The freshly created empty database. -/
def emptyDB : DB := ⟨[], []⟩

/-- Options of the `Meal Type` selectbox (`["Veg", "Non-Veg", "Vegan"]`): the widget
only ever yields one of these three values. -/
inductive MealType where
  | Veg
  | NonVeg
  | Vegan
deriving DecidableEq, Repr

/-- The string the selectbox hands to the form handler. -/
def MealType.toStr : MealType → String
  | .Veg => "Veg"
  | .NonVeg => "Non-Veg"
  | .Vegan => "Vegan"

/-! ## The add-listing form handler -/

/-- The raw field values the form hands to the submit branch of
`add_food_form` in `src/app.py`. -/
structure AddInput where
  food_id : String
  provider_id : String
  food_item : String
  quantity : ℚ
  expiry : Date
  location : String
  meal_type : MealType
  provider_name : String
  provider_contact : String
deriving DecidableEq, Repr

/-- Model of `st.date_input("Expiry Date", min_value=date.today())`: the widget
only yields a date no earlier than its `min_value`. -/
def date_input (minVal d : Date) : Option Date :=
  if Date.leb minVal d then some d else none

/-- Zero-padded decimal rendering, as `strftime` does for `%m`/`%d`
(and `%Y` on four-digit years). -/
def padNum (w n : Nat) : String :=
  let s := toString n
  ⟨List.replicate (w - s.data.length) '0' ++ s.data⟩

/-- Rendering of `expiry.strftime("%Y-%m-%d")`. -/
def formatDate (d : Date) : String :=
  padNum 4 d.year ++ "-" ++ padNum 2 d.month ++ "-" ++ padNum 2 d.day

/-- The validation condition of `add_food_form` (lines 119–123): all six text
inputs are truthy after `.strip()`, the selectbox value is truthy, and
`quantity > 0`. -/
def validB (i : AddInput) : Bool :=
  strip i.food_id != "" && strip i.provider_id != "" && strip i.food_item != "" &&
  strip i.location != "" && strip i.provider_name != "" && strip i.provider_contact != "" &&
  i.meal_type.toStr != "" && decide ((0 : ℚ) < i.quantity)

/-- The `food_listings` row built by the INSERT at lines 128–136: every text
field is stripped, the date is rendered with `strftime("%Y-%m-%d")`. -/
def mkFoodRow (i : AddInput) : FoodRow :=
  { Food_ID := strip i.food_id
    Provider_ID := strip i.provider_id
    Food_Item := strip i.food_item
    Quantity := i.quantity
    Expiry_Date := formatDate i.expiry
    Location := strip i.location
    Meal_Type := i.meal_type.toStr }

/-- The `providers` row built by the INSERT at lines 138–141. -/
def mkProviderRow (i : AddInput) : ProviderRow :=
  { Name := strip i.provider_name
    Contact := strip i.provider_contact
    City := strip i.location }

/-- The statement `INSERT OR IGNORE INTO providers (Name, Contact, City) VALUES (?,?,?)`.
The `providers` schema (lines 34–41) declares only the autoincrement primary
key and NOT NULL columns — there is no UNIQUE constraint on
(Name, Contact, City) — so `OR IGNORE` never has a conflict to ignore and the
statement appends a row unconditionally. -/
def insertOrIgnoreProvider (p : ProviderRow) (ps : List ProviderRow) : List ProviderRow :=
  ps ++ [p]

/-- Outcome of submitting the add-food form. -/
inductive AddResult where
  | success (db : DB)
  | invalidInput
deriving DecidableEq, Repr

/-- The submit branch of `add_food_form`: on valid input, insert one listing
row and run the provider INSERT OR IGNORE, then commit; otherwise warn
("Please fill all required fields correctly") and touch nothing. -/
def add_food_form (i : AddInput) (db : DB) : AddResult :=
  if validB i then
    .success { food_listings := db.food_listings ++ [mkFoodRow i]
               providers := insertOrIgnoreProvider (mkProviderRow i) db.providers }
  else
    .invalidInput

/-- The database state after one form submission (unchanged on rejection). -/
def stepDB (i : AddInput) (db : DB) : DB :=
  match add_food_form i db with
  | .success db' => db'
  | .invalidInput => db

/-- Database state after a sequence of form submissions. -/
def runAll (inputs : List AddInput) (db : DB) : DB :=
  inputs.foldl (fun d i => stepDB i d) db

/-! ## Read paths (`load_food_listings`, `load_providers_by_city`) -/

/-- Result of `load_food_listings`: either the rows, or the screen is halted
(`st.stop()` inside the `except` branch). -/
inductive ListingsReadResult where
  | ok (rows : List FoodRow)
  | halted
deriving DecidableEq, Repr

/-- Model of `load_food_listings` (lines 48–56): on a storage fault it shows an error
and calls `st.stop()`, halting the screen. -/
def load_food_listings (fault : Bool) (db : DB) : ListingsReadResult :=
  if fault then .halted else .ok db.food_listings

/-- What `load_providers_by_city` leaves behind: whether an error message was
shown, whether the screen was halted, and the returned rows. -/
structure ProvidersRead where
  errorShown : Bool
  halted : Bool
  rows : List ProviderRow
deriving DecidableEq, Repr

/-- Model of `load_providers_by_city` (lines 58–68): on a storage fault it shows an
error and then `return pd.DataFrame()` — an empty result, no halt. -/
def load_providers_by_city (fault : Bool) (db : DB) (city : String) : ProvidersRead :=
  if fault then ⟨true, false, []⟩
  else ⟨false, false, db.providers.filter (fun p => p.City == city)⟩

/-! ## The dashboard dataframe -/

/-- One row of the dashboard dataframe after line 159
(`pd.to_datetime(..., errors='coerce')`): `Expiry_Date` is a parsed date or
NaT (`none`). -/
structure DashRow where
  Food_Item : String
  Quantity : ℚ
  Expiry_Date : Option Date
  Location : String
  Meal_Type : String
deriving DecidableEq, Repr

/-- Line 163: `df['Food_Item'].fillna('Unknown').replace('', 'Unknown')`
(the SQL column is NOT NULL, so only the empty string needs replacing). -/
def cleanItem (s : String) : String := if s = "" then "Unknown" else s

/-- The grouping key used by `top_food`: the cleaned `Food_Item`. -/
def itemKey (r : DashRow) : String := cleanItem r.Food_Item

/-- Evaluation of `df['Expiry_Date'] < today` for a single row: `NaT < today` is `False`. -/
def isExpiredB (today : Date) (r : DashRow) : Bool :=
  match r.Expiry_Date with
  | some d => Date.ltb d today
  | none => false

/-- Row count `len(df)`. -/
def total_listings (rows : List DashRow) : Nat := rows.length

/-- Sum `df["Quantity"].sum()` (line 168). -/
def total_quantity (rows : List DashRow) : ℚ := (rows.map (fun r => r.Quantity)).sum

/-- Count `len(df[df['Expiry_Date'] < today])` (lines 171–172). -/
def num_expired (today : Date) (rows : List DashRow) : Nat :=
  (rows.filter (isExpiredB today)).length

/-! ## Sorting (pandas `groupby(sort=True)` and stable `sort_values`) -/

/-- Insert `a` before the first element `b` with `leb a b`; this is the
insertion step of a stable insertion sort, matching how pandas keeps ties of
`sort_values` in their incoming order on small inputs. -/
def insertLeB (leb : α → α → Bool) (a : α) : List α → List α
  | [] => [a]
  | b :: l => if leb a b then a :: b :: l else b :: insertLeB leb a l

/-- Stable insertion sort by the boolean comparator `leb`. -/
def sortByB (leb : α → α → Bool) : List α → List α
  | [] => []
  | a :: l => insertLeB leb a (sortByB leb l)

/-- Strict lexicographic order on character lists (by code point). -/
def strLtL : List Char → List Char → Bool
  | [], [] => false
  | [], _ :: _ => true
  | _ :: _, [] => false
  | a :: as, b :: bs =>
    if a.toNat < b.toNat then true
    else if b.toNat < a.toNat then false
    else strLtL as bs

/-- Strict lexicographic order on strings, the order pandas sorts group keys
in (`groupby(..., sort=True)`). -/
def strLtb (s t : String) : Bool := strLtL s.data t.data

/-- Non-strict string order. -/
def strLeb (s t : String) : Bool := !(strLtb t s)

/-- The distinct group keys in the order pandas `groupby(sort=True)` yields
them: ascending by key. -/
def keysOf (key : DashRow → String) (rows : List DashRow) : List String :=
  sortByB strLeb ((rows.map key).dedup)

/-- Summed `Quantity` of the group of `k` under `key`. -/
def groupSum (key : DashRow → String) (rows : List DashRow) (k : String) : ℚ :=
  ((rows.filter (fun r => key r == k)).map (fun r => r.Quantity)).sum

/-- Grouping `df.groupby("Location")["Quantity"].sum()` (line 185): one
(Location, summed Quantity) pair per distinct location, keys ascending. -/
def quantity_by_location (rows : List DashRow) : List (String × ℚ) :=
  (keysOf (fun r => r.Location) rows).map (fun k => (k, groupSum (fun r => r.Location) rows k))

/-- Descending-by-sum comparator used to model
`sort_values(ascending=False)` on the grouped sums. -/
def qgeb (a b : String × ℚ) : Bool := decide (b.2 ≤ a.2)

/-- The grouped, summed series `df.groupby("Food_Item")["Quantity"].sum()`
(line 211): one (key, summed Quantity) pair per distinct cleaned `Food_Item`,
keys ascending, as `groupby(sort=True)` yields them. -/
def groupedSums (rows : List DashRow) : List (String × ℚ) :=
  (keysOf itemKey rows).map (fun k => (k, groupSum itemKey rows k))

/-- One admissible outcome of `sort_values(ascending=False)` on a grouped
series: the model fixes only what the pandas documentation fixes — the output
is a permutation of the input in non-increasing order of the summed quantity.
The order of equal-sum ties is deliberately left unconstrained, because the
default `kind='quicksort'` is documented as not stable. -/
def IsSortValuesDesc (inp out : List (String × ℚ)) : Prop :=
  List.Perm out inp ∧ out.Pairwise (fun a b => b.2 ≤ a.2)

/-- One admissible value of the pipeline
`df.groupby("Food_Item")["Quantity"].sum().sort_values(ascending=False).head(n)`
(line 211, where the source instantiates `n = 5`): the `n`-prefix of some
admissible descending sort of the grouped sums. -/
def IsTopFood (n : Nat) (rows : List DashRow) (out : List (String × ℚ)) : Prop :=
  ∃ s, IsSortValuesDesc (groupedSums rows) s ∧ out = s.take n

/-- The executable small-series model of the same pipeline, used for the
concrete inputs of this development (at most three groups). It resolves the
tie order `sort_values` leaves unspecified the way the program itself does on
grouped series below numpy's insertion-sort threshold (about 16 elements):
there introsort degenerates to a stable insertion sort, and pandas reverses
the array before and after the ascending argsort, so equal sums keep the
ascending key order produced by `groupby`. On larger series only the
`IsTopFood` contract is claimed. -/
def top_food (n : Nat) (rows : List DashRow) : List (String × ℚ) :=
  (sortByB qgeb (groupedSums rows)).take n

/-- Assignment `df['Is_Expired'] = df['Expiry_Date'] < today` followed by
`value_counts()` (lines 222–224): the count of `True` rows (Expired) and of
`False` rows (Not Expired). -/
def expiry_status (today : Date) (rows : List DashRow) : Nat × Nat :=
  ((rows.filter (fun r => isExpiredB today r)).length,
   (rows.filter (fun r => !(isExpiredB today r))).length)

/-- Number of rows whose `Expiry_Date` parsed (is not NaT). -/
def parsableCount (rows : List DashRow) : Nat :=
  (rows.filter (fun r => r.Expiry_Date.isSome)).length

/-- Number of rows with a parsable date that is not expired. -/
def parsableNotExpiredCount (today : Date) (rows : List DashRow) : Nat :=
  (rows.filter (fun r => r.Expiry_Date.isSome && !(isExpiredB today r))).length

/-- Number of rows whose `Expiry_Date` failed to parse (NaT). -/
def unparsableCount (rows : List DashRow) : Nat :=
  (rows.filter (fun r => r.Expiry_Date.isNone)).length

/-! ## Lemmas about `str.strip()` -/

/-- Dropping a satisfied prefix twice is the same as dropping it once. -/
theorem dropWhile_twice (p : α → Bool) : ∀ l : List α,
    (l.dropWhile p).dropWhile p = l.dropWhile p
  | [] => rfl
  | a :: l => by
    by_cases h : p a
    · simp only [List.dropWhile_cons, h, if_pos]
      exact dropWhile_twice p l
    · simp [List.dropWhile_cons, h]

/-- The part removed by `dropWhile` can be put back in front. -/
theorem exists_append_dropWhile (p : α → Bool) : ∀ l : List α,
    ∃ u, u ++ l.dropWhile p = l
  | [] => ⟨[], rfl⟩
  | a :: l => by
    by_cases h : p a
    · obtain ⟨u, hu⟩ := exists_append_dropWhile p l
      exact ⟨a :: u, by simp [List.dropWhile_cons, h, hu]⟩
    · exact ⟨[], by simp [List.dropWhile_cons, h]⟩

/-- The head surviving `dropWhile`, if any, fails the predicate. -/
theorem head_dropWhile (p : α → Bool) : ∀ l : List α,
    l.dropWhile p = [] ∨ ∃ a t, l.dropWhile p = a :: t ∧ p a = false
  | [] => .inl rfl
  | a :: l => by
    by_cases h : p a
    · simpa [List.dropWhile_cons, h] using head_dropWhile p l
    · exact .inr ⟨a, l, by simp [List.dropWhile_cons, h], by simp [h]⟩

/-- Stripping a (front-)stripped list from the back leaves the front stripped. -/
theorem dropWhile_stripL (l : List Char) :
    (stripL l).dropWhile isSpace = stripL l := by
  unfold stripL
  rcases head_dropWhile isSpace l with h0 | ⟨a, t, hat, hpa⟩
  · rw [h0]; rfl
  · obtain ⟨u, hu⟩ := exists_append_dropWhile isSpace (l.dropWhile isSpace).reverse
    have hs : ((l.dropWhile isSpace).reverse.dropWhile isSpace).reverse ++ u.reverse
        = l.dropWhile isSpace := by
      have h2 := congrArg List.reverse hu
      simpa [List.reverse_append] using h2
    cases hsrev : ((l.dropWhile isSpace).reverse.dropWhile isSpace).reverse with
    | nil => rfl
    | cons b s' =>
      rw [hsrev, hat] at hs
      have hb : b = a := by
        have := congrArg (fun x => x.head?) hs
        simpa using this
      subst hb
      simp [List.dropWhile_cons, hpa]

/-- Python's `strip` is idempotent on character lists. -/
theorem stripL_idem (l : List Char) : stripL (stripL l) = stripL l := by
  conv_lhs => rw [stripL, dropWhile_stripL]
  rw [stripL, List.reverse_reverse, dropWhile_twice]

/-- Python's `strip` is idempotent. -/
theorem strip_strip (s : String) : strip (strip s) = strip s := by
  simp [strip, stripL_idem]

/-! ## A small library for the stable sorts used by pandas -/

/-- Membership in an insertion step. -/
theorem mem_insertLeB (leb : α → α → Bool) (a : α) : ∀ (l : List α) (y : α),
    y ∈ insertLeB leb a l ↔ y = a ∨ y ∈ l
  | [], y => by simp [insertLeB]
  | b :: l, y => by
    by_cases h : leb a b
    · simp only [insertLeB, if_pos h, List.mem_cons]
    · simp only [insertLeB, if_neg h, List.mem_cons, mem_insertLeB leb a l y]
      tauto

/-- Inserting permutes to consing. -/
theorem insertLeB_perm (leb : α → α → Bool) (a : α) : ∀ l : List α,
    List.Perm (insertLeB leb a l) (a :: l)
  | [] => .refl _
  | b :: l => by
    by_cases h : leb a b
    · simp [insertLeB, h]
    · simp only [insertLeB, h, if_neg, Bool.false_eq_true, not_false_iff]
      exact (List.Perm.cons b (insertLeB_perm leb a l)).trans (List.Perm.swap a b l)

/-- Sorting permutes the input. -/
theorem sortByB_perm (leb : α → α → Bool) : ∀ l : List α,
    List.Perm (sortByB leb l) l
  | [] => .refl _
  | a :: l => (insertLeB_perm leb a _).trans (.cons a (sortByB_perm leb l))

/-- Inserting into a sorted list keeps it sorted, for a total transitive
boolean comparator. -/
theorem pairwise_insertLeB (leb : α → α → Bool)
    (hflip : ∀ x y, leb x y = false → leb y x = true)
    (htr : ∀ x y z, leb x y = true → leb y z = true → leb x z = true) (a : α) :
    ∀ l : List α, l.Pairwise (fun x y => leb x y = true) →
      (insertLeB leb a l).Pairwise (fun x y => leb x y = true)
  | [], _ => by simp [insertLeB]
  | b :: l, hp => by
    rcases List.pairwise_cons.mp hp with ⟨hb, hl⟩
    by_cases h : leb a b
    · rw [insertLeB, if_pos h]
      refine List.pairwise_cons.mpr ⟨?_, hp⟩
      intro y hy
      rcases List.mem_cons.mp hy with rfl | hy'
      · exact h
      · exact htr a b y h (hb y hy')
    · rw [insertLeB, if_neg h]
      refine List.pairwise_cons.mpr ⟨?_, pairwise_insertLeB leb hflip htr a l hl⟩
      intro y hy
      rcases (mem_insertLeB leb a l y).mp hy with rfl | hy'
      · exact hflip _ _ (by simpa using h)
      · exact hb y hy'

/-- Insertion sort sorts, for a total transitive boolean comparator. -/
theorem pairwise_sortByB (leb : α → α → Bool)
    (hflip : ∀ x y, leb x y = false → leb y x = true)
    (htr : ∀ x y z, leb x y = true → leb y z = true → leb x z = true) :
    ∀ l : List α, (sortByB leb l).Pairwise (fun x y => leb x y = true)
  | [] => by simp [sortByB]
  | a :: l => by
    rw [sortByB]
    exact pairwise_insertLeB leb hflip htr a _ (pairwise_sortByB leb hflip htr l)

/-- Two sorted lists that are permutations of each other are equal, for an
antisymmetric comparator. -/
theorem sorted_unique (leb : α → α → Bool)
    (hanti : ∀ x y, leb x y = true → leb y x = true → x = y) :
    ∀ l₁ l₂ : List α, List.Perm l₁ l₂ →
      l₁.Pairwise (fun x y => leb x y = true) →
      l₂.Pairwise (fun x y => leb x y = true) → l₁ = l₂
  | [], l₂, hp, _, _ => List.Perm.nil_eq hp
  | a :: t₁, l₂, hp, h₁, h₂ => by
    cases l₂ with
    | nil => exact absurd hp.symm (by simp)
    | cons b t₂ =>
      have hab : a = b := by
        by_cases hab : a = b
        · exact hab
        · have ha2 : a ∈ b :: t₂ := hp.mem_iff.mp (List.mem_cons_self a t₁)
          have hb1 : b ∈ a :: t₁ := hp.mem_iff.mpr (List.mem_cons_self b t₂)
          have hat : a ∈ t₂ := by
            rcases List.mem_cons.mp ha2 with h | h
            · exact absurd h hab
            · exact h
          have hbt : b ∈ t₁ := by
            rcases List.mem_cons.mp hb1 with h | h
            · exact absurd h.symm hab
            · exact h
          exact absurd (hanti a b ((List.pairwise_cons.mp h₁).1 b hbt)
            ((List.pairwise_cons.mp h₂).1 a hat)) hab
      subst hab
      have hp' : List.Perm t₁ t₂ := List.Perm.cons_inv hp
      rw [sorted_unique leb hanti t₁ t₂ hp' (List.pairwise_cons.mp h₁).2
        (List.pairwise_cons.mp h₂).2]

/-! ## The lexicographic string order used for pandas group keys -/

/-- Characters with equal code points are equal. -/
theorem char_eq_of_toNat_eq {a b : Char} (h : a.toNat = b.toNat) : a = b :=
  Char.eq_of_val_eq (UInt32.toNat.inj h)

/-- Nothing is lexicographically below the empty list. -/
theorem strLtL_nil : ∀ a : List Char, strLtL a [] = false
  | [] => rfl
  | _ :: _ => rfl

/-- Lexicographic order is asymmetric. -/
theorem strLtL_asym : ∀ a b : List Char, strLtL a b = true → strLtL b a = false
  | [], [] => by simp [strLtL]
  | [], _ :: _ => by simp [strLtL]
  | _ :: _, [] => by simp [strLtL]
  | a :: as, b :: bs => by
    by_cases h1 : a.toNat < b.toNat
    · intro _
      have h2 : ¬ b.toNat < a.toNat := Nat.lt_asymm h1
      simp [strLtL, h1, h2]
    · by_cases h2 : b.toNat < a.toNat
      · simp [strLtL, h1, h2]
      · intro h3
        have h4 : strLtL as bs = true := by simpa [strLtL, h1, h2] using h3
        simp [strLtL, h1, h2, strLtL_asym as bs h4]

/-- Lexicographic order is trichotomous. -/
theorem strLtL_tricho : ∀ a b : List Char, strLtL a b = true ∨ a = b ∨ strLtL b a = true
  | [], [] => .inr (.inl rfl)
  | [], _ :: _ => .inl (by simp [strLtL])
  | _ :: _, [] => .inr (.inr (by simp [strLtL]))
  | a :: as, b :: bs => by
    by_cases h1 : a.toNat < b.toNat
    · exact .inl (by simp [strLtL, h1])
    · by_cases h2 : b.toNat < a.toNat
      · exact .inr (.inr (by simp [strLtL, h2]))
      · have hab : a = b :=
          char_eq_of_toNat_eq (Nat.le_antisymm (Nat.not_lt.mp h2) (Nat.not_lt.mp h1))
        rcases strLtL_tricho as bs with h | h | h
        · exact .inl (by simp [strLtL, h1, h2, h])
        · exact .inr (.inl (by rw [hab, h]))
        · exact .inr (.inr (by simp [strLtL, h1, h2, h]))

/-- Lexicographic order is transitive. -/
theorem strLtL_trans : ∀ a b c : List Char,
    strLtL a b = true → strLtL b c = true → strLtL a c = true
  | [], b, c => by
    intro h1 h2
    cases b with
    | nil => simp [strLtL] at h1
    | cons b bs =>
      cases c with
      | nil => rw [strLtL_nil] at h2; cases h2
      | cons c cs => simp [strLtL]
  | a :: as, b, c => by
    cases b with
    | nil => intro h1; rw [strLtL_nil] at h1; cases h1
    | cons b bs =>
      cases c with
      | nil => intro _ h2; rw [strLtL_nil] at h2; cases h2
      | cons c cs =>
        by_cases hab : a.toNat < b.toNat
        · by_cases hbc : b.toNat < c.toNat
          · intro _ _
            have hac : a.toNat < c.toNat := Nat.lt_trans hab hbc
            simp [strLtL, hac]
          · by_cases hcb : c.toNat < b.toNat
            · intro _ h2
              exfalso
              simp [strLtL, hbc, hcb] at h2
            · intro _ _
              have hbceq : b.toNat = c.toNat :=
                Nat.le_antisymm (Nat.not_lt.mp hcb) (Nat.not_lt.mp hbc)
              have hac : a.toNat < c.toNat := hbceq ▸ hab
              simp [strLtL, hac]
        · by_cases hba : b.toNat < a.toNat
          · intro h1 _
            exfalso
            simp [strLtL, hab, hba] at h1
          · have habeq : a.toNat = b.toNat :=
              Nat.le_antisymm (Nat.not_lt.mp hba) (Nat.not_lt.mp hab)
            by_cases hbc : b.toNat < c.toNat
            · intro _ _
              have hac : a.toNat < c.toNat := habeq ▸ hbc
              simp [strLtL, hac]
            · by_cases hcb : c.toNat < b.toNat
              · intro _ h2
                exfalso
                simp [strLtL, hbc, hcb] at h2
              · intro h1 h2
                have h1' : strLtL as bs = true := by simpa [strLtL, hab, hba] using h1
                have h2' : strLtL bs cs = true := by simpa [strLtL, hbc, hcb] using h2
                have hbceq : b.toNat = c.toNat :=
                  Nat.le_antisymm (Nat.not_lt.mp hcb) (Nat.not_lt.mp hbc)
                have hace : a.toNat = c.toNat := habeq.trans hbceq
                simp [strLtL, hace, Nat.lt_irrefl, strLtL_trans as bs cs h1' h2']

/-- Totality of the non-strict string order. -/
theorem strLeb_flip (s t : String) (h : strLeb s t = false) : strLeb t s = true := by
  have h1 : strLtL t.data s.data = true := by simpa [strLeb, strLtb] using h
  have h2 := strLtL_asym _ _ h1
  simp [strLeb, strLtb, h2]

/-- Transitivity of the non-strict string order. -/
theorem strLeb_trans (s t u : String) (h1 : strLeb s t = true) (h2 : strLeb t u = true) :
    strLeb s u = true := by
  have h1' : strLtL t.data s.data = false := by simpa [strLeb, strLtb] using h1
  have h2' : strLtL u.data t.data = false := by simpa [strLeb, strLtb] using h2
  have hres : strLtL u.data s.data = false := by
    by_contra hc
    have hc' : strLtL u.data s.data = true := by simpa using hc
    rcases strLtL_tricho s.data t.data with h | h | h
    · have hut := strLtL_trans _ _ _ hc' h
      exact absurd hut (by simp [h2'])
    · rw [h] at hc'
      exact absurd hc' (by simp [h2'])
    · exact absurd h (by simp [h1'])
  simp [strLeb, strLtb, hres]

/-- Antisymmetry of the non-strict string order. -/
theorem strLeb_anti (s t : String) (h1 : strLeb s t = true) (h2 : strLeb t s = true) :
    s = t := by
  have h1' : strLtL t.data s.data = false := by simpa [strLeb, strLtb] using h1
  have h2' : strLtL s.data t.data = false := by simpa [strLeb, strLtb] using h2
  rcases strLtL_tricho s.data t.data with h | h | h
  · exact absurd h (by simp [h2'])
  · exact String.ext h
  · exact absurd h (by simp [h1'])

/-! ## Properties of the grouping pipeline -/

/-- The group-key list carries no duplicates. -/
theorem keysOf_nodup (key : DashRow → String) (rows : List DashRow) :
    (keysOf key rows).Nodup :=
  (List.Perm.nodup_iff (sortByB_perm strLeb _)).mpr (List.nodup_dedup _)

/-- Every row's key occurs among the group keys. -/
theorem keysOf_mem (key : DashRow → String) (rows : List DashRow) (r : DashRow)
    (hr : r ∈ rows) : key r ∈ keysOf key rows := by
  have h1 : key r ∈ rows.map key := List.mem_map_of_mem key hr
  have h2 : key r ∈ (rows.map key).dedup := List.mem_dedup.mpr h1
  exact (sortByB_perm strLeb _).mem_iff.mpr h2

/-- The group keys are listed in ascending order. -/
theorem keysOf_sorted (key : DashRow → String) (rows : List DashRow) :
    (keysOf key rows).Pairwise (fun x y => strLeb x y = true) :=
  pairwise_sortByB strLeb strLeb_flip strLeb_trans _

/-- The group-key list only depends on the multiset of rows. -/
theorem keysOf_perm_eq (key : DashRow → String) {rows rows' : List DashRow}
    (h : List.Perm rows' rows) : keysOf key rows' = keysOf key rows := by
  apply sorted_unique strLeb strLeb_anti
  · have h1 : List.Perm (rows'.map key) (rows.map key) := h.map key
    exact (sortByB_perm strLeb _).trans (h1.dedup.trans (sortByB_perm strLeb _).symm)
  · exact keysOf_sorted key rows'
  · exact keysOf_sorted key rows

/-- Group sums only depend on the multiset of rows. -/
theorem groupSum_perm_eq (key : DashRow → String) {rows rows' : List DashRow}
    (h : List.Perm rows' rows) (k : String) :
    groupSum key rows' k = groupSum key rows k :=
  List.Perm.sum_eq ((h.filter _).map _)

/-- Peeling one row off a group sum. -/
theorem groupSum_cons (key : DashRow → String) (r : DashRow) (rows : List DashRow)
    (k : String) :
    groupSum key (r :: rows) k
      = (if key r == k then r.Quantity else 0) + groupSum key rows k := by
  by_cases h : key r == k <;> simp [groupSum, List.filter_cons, h]

/-- Summing a pointwise sum splits into two sums. -/
theorem sum_map_add {β : Type} (f g : β → ℚ) : ∀ l : List β,
    (l.map fun x => f x + g x).sum = (l.map f).sum + (l.map g).sum
  | [] => by simp
  | a :: l => by
    simp only [List.map_cons, List.sum_cons, sum_map_add f g l]
    ring

/-- Summing an indicator over a duplicate-free covering key list picks out
the single matching key. -/
theorem sum_ite_single (q : ℚ) (x : String) : ∀ keys : List String,
    keys.Nodup → x ∈ keys → (keys.map fun k => if x = k then q else 0).sum = q
  | [], _, hmem => absurd hmem (by simp)
  | k :: ks, hnd, hmem => by
    by_cases hx : x = k
    · subst hx
      have hxks : x ∉ ks := (List.nodup_cons.mp hnd).1
      have hz : (ks.map fun k' => if x = k' then q else 0).sum = 0 := by
        apply List.sum_eq_zero
        intro y hy
        rcases List.mem_map.mp hy with ⟨k', hk', rfl⟩
        rw [if_neg]
        intro he
        exact hxks (he ▸ hk')
      simp [hz]
    · have hmem' : x ∈ ks := by
        rcases List.mem_cons.mp hmem with h | h
        · exact absurd h hx
        · exact h
      rw [List.map_cons, List.sum_cons, if_neg hx,
        sum_ite_single q x ks (List.nodup_cons.mp hnd).2 hmem', zero_add]

/-- Summing the group sums over any duplicate-free covering key list gives
the total quantity. -/
theorem sum_groups (key : DashRow → String) : ∀ (rows : List DashRow)
    (keys : List String), keys.Nodup → (∀ r ∈ rows, key r ∈ keys) →
    (keys.map fun k => groupSum key rows k).sum = total_quantity rows
  | [], keys, _, _ => by
    have hz : (keys.map fun k => groupSum key [] k).sum = 0 := by
      apply List.sum_eq_zero
      intro y hy
      rcases List.mem_map.mp hy with ⟨k, _, rfl⟩
      simp [groupSum]
    simp [hz, total_quantity]
  | r :: rows, keys, hnd, hcov => by
    have hr : key r ∈ keys := hcov r (by simp)
    have step1 : (keys.map fun k => groupSum key (r :: rows) k).sum
        = (keys.map fun k => (if key r = k then r.Quantity else 0) + groupSum key rows k).sum := by
      simp only [groupSum_cons, beq_iff_eq]
    rw [step1, sum_map_add, sum_ite_single _ _ keys hnd hr,
      sum_groups key rows keys hnd (fun r' h' => hcov r' (by simp [h']))]
    simp [total_quantity]

/-! ## Concrete inputs used by witnesses and counterexamples -/

/-- A well-formed form submission (provider "Anna"/"123" in "Pune"). -/
def i1 : AddInput :=
  { food_id := "F1", provider_id := "P1", food_item := "Rice", quantity := 2,
    expiry := ⟨2099, 1, 1⟩, location := "Pune", meal_type := .Veg,
    provider_name := "Anna", provider_contact := "123" }

/-- A submission rejected by validation (non-positive quantity). -/
def iBad : AddInput :=
  { food_id := "F2", provider_id := "P2", food_item := "Dal", quantity := -1,
    expiry := ⟨2099, 1, 1⟩, location := "Pune", meal_type := .Veg,
    provider_name := "Cara", provider_contact := "456" }

/-- A submission whose expiry date (2020-01-01) lies strictly before
2024-01-01, with every validated field well-formed. -/
def iPast : AddInput :=
  { food_id := "F3", provider_id := "P3", food_item := "Old", quantity := 2,
    expiry := ⟨2020, 1, 1⟩, location := "Pune", meal_type := .Veg,
    provider_name := "Bob", provider_contact := "999" }

/-! ## The claims -/

/-- C1: the claim says adding the same provider tuple twice leaves exactly one
matching `providers` row because the second INSERT OR IGNORE is suppressed.
The schema has no UNIQUE constraint on (Name, Contact, City), so nothing is
ever ignored: after two identical submissions the table holds two rows
matching the tuple ("Anna", "123", "Pune"), not one. -/
theorem C1_duplicate_provider_rows :
    ((stepDB i1 (stepDB i1 emptyDB)).providers.filter
      (fun p => p.Name == "Anna" && p.Contact == "123" && p.City == "Pune")).length = 2 := by
  decide

/-- C2: when the quantity is non-positive or any required text field strips to
the empty string, the form submission is rejected as invalid input and both
table row counts are unchanged. -/
theorem C2_invalid_input_no_mutation (db : DB) (i : AddInput)
    (h : i.quantity ≤ 0 ∨ strip i.food_id = "" ∨ strip i.provider_id = "" ∨
      strip i.food_item = "" ∨ strip i.location = "" ∨ strip i.provider_name = "" ∨
      strip i.provider_contact = "") :
    add_food_form i db = .invalidInput ∧
    (stepDB i db).food_listings.length = db.food_listings.length ∧
    (stepDB i db).providers.length = db.providers.length := by
  have hv : validB i = false := by
    rcases h with h | h | h | h | h | h | h
    · have hq : ¬ (0 : ℚ) < i.quantity := not_lt.mpr h
      simp [validB, hq]
    · simp [validB, h]
    · simp [validB, h]
    · simp [validB, h]
    · simp [validB, h]
    · simp [validB, h]
    · simp [validB, h]
  refine ⟨by simp [add_food_form, hv], ?_, ?_⟩ <;> simp [stepDB, add_food_form, hv]

/-- Witness for C2 at the concrete rejected submission `iBad`. -/
theorem C2_witness :
    add_food_form iBad emptyDB = .invalidInput ∧
    (stepDB iBad emptyDB).food_listings.length = emptyDB.food_listings.length ∧
    (stepDB iBad emptyDB).providers.length = emptyDB.providers.length :=
  C2_invalid_input_no_mutation emptyDB iBad (.inl (by norm_num [iBad]))

/-- C3 counterexample: on a storage fault, `load_providers_by_city` does not
halt the screen — it reports an error and returns an ordinary empty result,
against the claim that every read-path fault halts further processing. -/
theorem C3_counterexample :
    (load_providers_by_city true emptyDB "Pune").halted = false ∧
    (load_providers_by_city true emptyDB "Pune").rows = [] ∧
    (load_providers_by_city true emptyDB "Pune").errorShown = true :=
  ⟨rfl, rfl, rfl⟩

/-- C3 (amended): a storage fault in `load_food_listings` halts the screen
(`st.stop`), while a storage fault in `load_providers_by_city` shows an error
but returns an empty result and lets processing continue. -/
theorem C3_fault_semantics (db : DB) (city : String) :
    load_food_listings true db = .halted ∧
    load_providers_by_city true db city = ⟨true, false, []⟩ :=
  ⟨rfl, rfl⟩

/-- First-seen "Banana" row with the same summed quantity as "Apple". -/
def rB : DashRow := ⟨"Banana", 5, some ⟨2099, 1, 1⟩, "X", "Veg"⟩

/-- Later-seen "Apple" row with the same summed quantity as "Banana". -/
def rA : DashRow := ⟨"Apple", 5, some ⟨2099, 1, 1⟩, "X", "Veg"⟩

/-- C4 counterexample: with rows seen in the order Banana, Apple and equal
sums, the claim's first-encountered tie-break predicts Banana first, but
`top_food` puts Apple first — `groupby(sort=True)` orders groups by key, not
by first appearance. -/
theorem C4_counterexample :
    top_food 2 [rB, rA] = [("Apple", 5), ("Banana", 5)] ∧
    top_food 2 [rB, rA] ≠ [("Banana", 5), ("Apple", 5)] := by
  constructor <;> simp [top_food, groupedSums, keysOf, itemKey, cleanItem, groupSum, sortByB,
    insertLeB, qgeb, strLeb, strLtb, strLtL, rA, rB, List.dedup, List.filter_cons]

/-- The grouped sums are a function of the multiset of rows alone. -/
theorem groupedSums_perm_eq {rows rows' : List DashRow}
    (h : List.Perm rows' rows) : groupedSums rows' = groupedSums rows := by
  unfold groupedSums
  have hfun : (fun k => (k, groupSum itemKey rows' k))
      = (fun k => (k, groupSum itemKey rows k)) :=
    funext (fun k => by rw [groupSum_perm_eq itemKey h k])
  rw [keysOf_perm_eq itemKey h, hfun]

/-- The executable small-series model is one admissible outcome of the
`sort_values(ascending=False).head(n)` pipeline. -/
theorem IsTopFood_top_food (n : Nat) (rows : List DashRow) :
    IsTopFood n rows (top_food n rows) := by
  refine ⟨sortByB qgeb (groupedSums rows), ⟨sortByB_perm qgeb _, ?_⟩, rfl⟩
  have hflip : ∀ x y : String × ℚ, qgeb x y = false → qgeb y x = true := by
    intro x y h
    have hn : ¬ y.2 ≤ x.2 := by simpa [qgeb] using h
    simp [qgeb, le_of_lt (not_le.mp hn)]
  have htr : ∀ x y z : String × ℚ,
      qgeb x y = true → qgeb y z = true → qgeb x z = true := by
    intro x y z h1 h2
    simp only [qgeb, decide_eq_true_eq] at h1 h2 ⊢
    exact le_trans h2 h1
  exact (pairwise_sortByB qgeb hflip htr (groupedSums rows)).imp
    (fun h => by simpa [qgeb] using h)

/-- C4 (amended): every admissible result of `top_food n` has at most `n`
entries in non-increasing order of summed quantity, and the admissible
results depend only on the multiset of rows — first-seen order cannot
influence them, since `groupby` sorts the group keys; the order of equal-sum
ties is not first-encountered (the counterexample shows ascending key order
on a small series) and is otherwise unspecified by the non-stable sort. -/
theorem C4_top_food_spec (n : Nat) (rows : List DashRow) (out : List (String × ℚ))
    (h : IsTopFood n rows out) :
    out.length ≤ n ∧
    out.Pairwise (fun a b => b.2 ≤ a.2) ∧
    (∀ rows' : List DashRow, List.Perm rows' rows → IsTopFood n rows' out) := by
  obtain ⟨s, ⟨hperm, hsort⟩, rfl⟩ := h
  refine ⟨?_, ?_, ?_⟩
  · rw [List.length_take]
    exact min_le_left _ _
  · exact List.Pairwise.sublist (List.take_sublist _ _) hsort
  · intro rows' hp
    refine ⟨s, ⟨?_, hsort⟩, rfl⟩
    rw [groupedSums_perm_eq hp]
    exact hperm

/-- Witness for C4: the concrete two-row pipeline output, with the
`IsTopFood` hypothesis discharged at the executable model and the
permutation conjunct instantiated at the swapped row order. -/
theorem C4_witness :
    (top_food 2 [rB, rA]).length ≤ 2 ∧ IsTopFood 2 [rA, rB] (top_food 2 [rB, rA]) := by
  have h := C4_top_food_spec 2 [rB, rA] (top_food 2 [rB, rA]) (IsTopFood_top_food 2 [rB, rA])
  exact ⟨h.1, h.2.2 [rA, rB] (List.Perm.swap rB rA [])⟩

/-- A row whose `Expiry_Date` failed to parse (NaT). -/
def rU : DashRow := ⟨"A", 1, none, "X", "Veg"⟩

/-- C5 counterexample: a single row with an unparsable date is counted in the
Not-Expired bucket (`NaT < today` is `False`), so the two buckets sum to the
total row count, not to the number of parsable rows as the claim states. -/
theorem C5_counterexample :
    (expiry_status ⟨2024, 1, 1⟩ [rU]).1 + (expiry_status ⟨2024, 1, 1⟩ [rU]).2
      ≠ parsableCount [rU] ∧
    (expiry_status ⟨2024, 1, 1⟩ [rU]).2 = 1 := by
  constructor <;> decide

/-- C5 (amended): the Expired bucket of `expiry_status` agrees with
`num_expired` (rows with unparsable dates are never Expired), but rows with
unparsable dates fall into the Not-Expired bucket, so the two buckets sum to
the total row count. -/
theorem C5_expiry_status_buckets (today : Date) (rows : List DashRow) :
    (expiry_status today rows).1 = num_expired today rows ∧
    (expiry_status today rows).1 + (expiry_status today rows).2 = rows.length ∧
    (expiry_status today rows).2 = parsableNotExpiredCount today rows + unparsableCount rows := by
  refine ⟨rfl, ?_, ?_⟩
  · induction rows with
    | nil => rfl
    | cons r rs ih =>
      simp only [expiry_status, List.filter_cons, List.length_cons] at ih ⊢
      cases h : isExpiredB today r <;> simp [h] <;> omega
  · induction rows with
    | nil => rfl
    | cons r rs ih =>
      simp only [expiry_status, parsableNotExpiredCount, unparsableCount,
        List.filter_cons] at ih ⊢
      rcases hre : r.Expiry_Date with _ | d
      · have hE : isExpiredB today r = false := by simp [isExpiredB, hre]
        simp [hE, hre]
        omega
      · have hS : r.Expiry_Date.isSome = true := by simp [hre]
        have hN : r.Expiry_Date.isNone = false := by simp [hre]
        cases hE : isExpiredB today r <;> simp [hE, hS, hN] <;> omega

/-- C6 counterexample: a submission whose expiry date lies strictly before a
given "today" (2024-01-01) is accepted and inserted, not rejected as invalid
input — the submit-branch validation never looks at the date. -/
theorem C6_counterexample :
    Date.ltb iPast.expiry ⟨2024, 1, 1⟩ = true ∧
    add_food_form iPast emptyDB ≠ .invalidInput ∧
    (stepDB iPast emptyDB).food_listings.length = 1 := by
  refine ⟨by decide, by decide, by decide⟩

/-- C6 (amended): the lower bound on the expiry date is enforced by the date
widget (`min_value = today`), which only yields dates no earlier than its
minimum; the submit-branch validation itself checks only the text fields and
the quantity, so any date — past dates included — passes it and is inserted. -/
theorem C6_date_not_validated (db : DB) (i : AddInput)
    (h1 : strip i.food_id ≠ "") (h2 : strip i.provider_id ≠ "")
    (h3 : strip i.food_item ≠ "") (h4 : strip i.location ≠ "")
    (h5 : strip i.provider_name ≠ "") (h6 : strip i.provider_contact ≠ "")
    (h7 : 0 < i.quantity) :
    (∀ t d d' : Date, date_input t d = some d' → Date.leb t d' = true) ∧
    add_food_form i db = .success
      ⟨db.food_listings ++ [mkFoodRow i], db.providers ++ [mkProviderRow i]⟩ := by
  constructor
  · intro t d d' hd
    unfold date_input at hd
    by_cases ht : Date.leb t d = true
    · rw [if_pos ht] at hd
      cases hd
      exact ht
    · rw [if_neg ht] at hd
      cases hd
  · have hm : i.meal_type.toStr ≠ "" := by cases i.meal_type <;> decide
    have hv : validB i = true := by
      simp [validB, bne_iff_ne, h1, h2, h3, h4, h5, h6, hm, h7]
    simp [add_food_form, hv, insertOrIgnoreProvider]

/-- Witness for C6 at the concrete past-dated submission `iPast`. -/
theorem C6_witness :
    add_food_form iPast emptyDB = .success ⟨[mkFoodRow iPast], [mkProviderRow iPast]⟩ := by
  have h := C6_date_not_validated emptyDB iPast (by decide) (by decide) (by decide)
    (by decide) (by decide) (by decide) (by decide)
  simpa [emptyDB] using h.2

/-- C7: expired rows, non-expired rows with parsable dates, and rows with
unparsable dates partition the listing set: their counts sum to the total
row count. -/
theorem C7_expiry_partition (today : Date) (rows : List DashRow) :
    num_expired today rows + parsableNotExpiredCount today rows + unparsableCount rows
      = total_listings rows := by
  induction rows with
  | nil => rfl
  | cons r rs ih =>
    simp only [num_expired, parsableNotExpiredCount, unparsableCount, total_listings,
      List.filter_cons, List.length_cons] at ih ⊢
    rcases hre : r.Expiry_Date with _ | d
    · have hE : isExpiredB today r = false := by simp [isExpiredB, hre]
      simp [hE, hre]
      omega
    · have hS : r.Expiry_Date.isSome = true := by simp [hre]
      have hN : r.Expiry_Date.isNone = false := by simp [hre]
      cases hE : isExpiredB today r <;> simp [hE, hS, hN] <;> omega

/-- C8: the per-location sums of `quantity_by_location` add up to the grand
total quantity — grouping by `Location` loses no quantity. -/
theorem C8_location_sums_total (rows : List DashRow) :
    ((quantity_by_location rows).map (fun p => p.2)).sum = total_quantity rows := by
  have h1 : (quantity_by_location rows).map (fun p => p.2)
      = (keysOf (fun r => r.Location) rows).map
          (fun k => groupSum (fun r => r.Location) rows k) := by
    simp [quantity_by_location, List.map_map, Function.comp]
  rw [h1]
  exact sum_groups _ rows _ (keysOf_nodup _ rows) (fun r hr => keysOf_mem _ rows r hr)

/-- First example row: Apple, 10 kg, expiring 2099-01-01. -/
def ex1 : DashRow := ⟨"Apple", 10, some ⟨2099, 1, 1⟩, "L", "Veg"⟩

/-- Second example row: Apple, 5 kg, expiring 2099-02-01. -/
def ex2 : DashRow := ⟨"Apple", 5, some ⟨2099, 2, 1⟩, "L", "Veg"⟩

/-- Third example row: Bread, 3 kg, expired 2020-01-01. -/
def ex3 : DashRow := ⟨"Bread", 3, some ⟨2020, 1, 1⟩, "L", "Veg"⟩

/-- C9: on the three example listings with reference date 2024-01-01, one row
is expired (the Bread), the total quantity is 18, and the top food item by
summed quantity is Apple with 15. -/
theorem C9_concrete_example :
    num_expired ⟨2024, 1, 1⟩ [ex1, ex2, ex3] = 1 ∧
    total_quantity [ex1, ex2, ex3] = 18 ∧
    top_food 1 [ex1, ex2, ex3] = [("Apple", 15)] := by
  refine ⟨by decide, by norm_num [total_quantity, ex1, ex2, ex3], ?_⟩
  simp [top_food, groupedSums, keysOf, itemKey, cleanItem, groupSum, sortByB, insertLeB, qgeb,
    strLeb, strLtb, strLtL, ex1, ex2, ex3, List.dedup, List.filter_cons]
  norm_num [List.take]

/-! ## The stored-row invariant (C10) -/

/-- The invariant claimed for every stored `food_listings` row: each text
field is fixed by `strip` and non-empty, and the stored `Expiry_Date` is the
`strftime("%Y-%m-%d")` rendering of a valid calendar date. -/
def listingOK (r : FoodRow) : Prop :=
  strip r.Food_ID = r.Food_ID ∧ r.Food_ID ≠ "" ∧
  strip r.Provider_ID = r.Provider_ID ∧ r.Provider_ID ≠ "" ∧
  strip r.Food_Item = r.Food_Item ∧ r.Food_Item ≠ "" ∧
  strip r.Location = r.Location ∧ r.Location ≠ "" ∧
  strip r.Meal_Type = r.Meal_Type ∧ r.Meal_Type ≠ "" ∧
  ∃ d : Date, d.valid ∧ r.Expiry_Date = formatDate d

/-- The invariant claimed for every stored `providers` row. -/
def providerOK (p : ProviderRow) : Prop :=
  strip p.Name = p.Name ∧ p.Name ≠ "" ∧
  strip p.Contact = p.Contact ∧ p.Contact ≠ "" ∧
  strip p.City = p.City ∧ p.City ≠ ""

/-- Unpacking the boolean validation into its component facts. -/
theorem validB_spec (i : AddInput) (hv : validB i = true) :
    strip i.food_id ≠ "" ∧ strip i.provider_id ≠ "" ∧ strip i.food_item ≠ "" ∧
    strip i.location ≠ "" ∧ strip i.provider_name ≠ "" ∧ strip i.provider_contact ≠ "" ∧
    0 < i.quantity := by
  simp only [validB, Bool.and_eq_true, bne_iff_ne, ne_eq, decide_eq_true_eq] at hv
  tauto

/-- Every selectbox value is a non-empty, already-trimmed string. -/
theorem mealType_str_ok (m : MealType) : strip m.toStr = m.toStr ∧ m.toStr ≠ "" := by
  cases m <;> exact ⟨by decide, by decide⟩

/-- A listing row built from a validated submission satisfies the invariant. -/
theorem mkFoodRow_ok (i : AddInput) (hv : validB i = true) (hd : i.expiry.valid) :
    listingOK (mkFoodRow i) := by
  obtain ⟨h1, h2, h3, h4, _, _, _⟩ := validB_spec i hv
  exact ⟨strip_strip _, h1, strip_strip _, h2, strip_strip _, h3, strip_strip _, h4,
    (mealType_str_ok i.meal_type).1, (mealType_str_ok i.meal_type).2,
    i.expiry, hd, rfl⟩

/-- A provider row built from a validated submission satisfies the invariant. -/
theorem mkProviderRow_ok (i : AddInput) (hv : validB i = true) :
    providerOK (mkProviderRow i) := by
  obtain ⟨_, _, _, h4, h5, h6, _⟩ := validB_spec i hv
  exact ⟨strip_strip _, h5, strip_strip _, h6, strip_strip _, h4⟩

/-- Submitting the form preserves the stored-row invariants. -/
theorem runAll_inv : ∀ (inputs : List AddInput) (db : DB),
    (∀ i ∈ inputs, i.expiry.valid) →
    (∀ r ∈ db.food_listings, listingOK r) → (∀ p ∈ db.providers, providerOK p) →
    (∀ r ∈ (runAll inputs db).food_listings, listingOK r) ∧
    (∀ p ∈ (runAll inputs db).providers, providerOK p)
  | [], _, _, hf, hp => ⟨hf, hp⟩
  | i :: inputs, db, hd, hf, hp => by
    have hrun : runAll (i :: inputs) db = runAll inputs (stepDB i db) := rfl
    by_cases hv : validB i = true
    · have hdb : stepDB i db
          = ⟨db.food_listings ++ [mkFoodRow i], db.providers ++ [mkProviderRow i]⟩ := by
        simp [stepDB, add_food_form, hv, insertOrIgnoreProvider]
      rw [hrun, hdb]
      apply runAll_inv inputs _ (fun j hj => hd j (List.mem_cons_of_mem i hj))
      · intro r hr
        rcases List.mem_append.mp hr with h | h
        · exact hf r h
        · rw [List.mem_singleton.mp h]
          exact mkFoodRow_ok i hv (hd i (List.mem_cons_self i inputs))
      · intro p hp'
        rcases List.mem_append.mp hp' with h | h
        · exact hp p h
        · rw [List.mem_singleton.mp h]
          exact mkProviderRow_ok i hv
    · have hv' : validB i = false := by simpa using hv
      have hdb : stepDB i db = db := by simp [stepDB, add_food_form, hv']
      rw [hrun, hdb]
      exact runAll_inv inputs db (fun j hj => hd j (List.mem_cons_of_mem i hj)) hf hp

/-- C10: on any sequence of form submissions (with calendar-valid entered
dates) starting from the empty database, every stored row carries trimmed,
non-empty text fields, and every stored `Expiry_Date` is the
`strftime("%Y-%m-%d")` rendering of the entered date. -/
theorem C10_stored_rows_normalized (inputs : List AddInput)
    (hd : ∀ i ∈ inputs, i.expiry.valid) :
    (∀ r ∈ (runAll inputs emptyDB).food_listings, listingOK r) ∧
    (∀ p ∈ (runAll inputs emptyDB).providers, providerOK p) :=
  runAll_inv inputs emptyDB hd
    (by intro r hr; simp [emptyDB] at hr) (by intro p hp; simp [emptyDB] at hp)

/-- Witness for C10 at the single concrete submission `i1`. -/
theorem C10_witness : listingOK (mkFoodRow i1) ∧ providerOK (mkProviderRow i1) := by
  have h := C10_stored_rows_normalized [i1]
    (by intro i hi; rw [List.mem_singleton.mp hi]; decide)
  have hv1 : validB i1 = true := by decide
  have hmem : (runAll [i1] emptyDB).food_listings = [mkFoodRow i1] := by
    simp [runAll, stepDB, add_food_form, hv1, emptyDB, insertOrIgnoreProvider]
  have hmem2 : (runAll [i1] emptyDB).providers = [mkProviderRow i1] := by
    simp [runAll, stepDB, add_food_form, hv1, emptyDB, insertOrIgnoreProvider]
  exact ⟨h.1 (mkFoodRow i1) (by rw [hmem]; exact List.mem_singleton_self _),
         h.2 (mkProviderRow i1) (by rw [hmem2]; exact List.mem_singleton_self _)⟩
